import Mathlib

/-!
Verification of `kind/pkg/cluster/kubeadm/config.go`.

A shallow embedding of the kubeadm configuration generator: the `ConfigData`
value object, `DeriveFields`, `DefaultConfigTemplate` and `Config`.

Go strings are embedded as Lean strings and processed through their character
lists.  The byte `+` only ever occurs in UTF-8 text as the character `+`, so
replacing it byte-wise (Go) and character-wise (here) agree on valid UTF-8.
-/

namespace Kubeadm

/-! ## Data model (config.go, lines 27-43) -/

/-- AutoDerivedConfigData fields are derived by `ConfigData.DeriveFields` when
they are not specified (zero valued). -/
structure AutoDerivedConfigData where
  DockerStableTag : String
  deriving DecidableEq, Repr

/-- ConfigData is supplied to the kubeadm config template.  The Go struct embeds
`AutoDerivedConfigData`, so the field is named after its type. -/
structure ConfigData where
  ClusterName : String
  KubernetesVersion : String
  UnifiedControlPlaneImage : String
  AutoDerivedConfigData : AutoDerivedConfigData
  deriving DecidableEq, Repr

/-- Go field promotion: `c.DockerStableTag` reads through the embedded struct. -/
def ConfigData.DockerStableTag (c : ConfigData) : String :=
  c.AutoDerivedConfigData.DockerStableTag

/-! ## `strings.Replace` (Go standard library) -/

/-- The replacement loop of `strings.Replace` for a non-empty `old`, scanning left
to right over non-overlapping matches.  `limit` is the number of replacements
still allowed (`none`: unlimited); `skip` counts the characters of the current
match that are still to be passed over. -/
def replaceLoop (old new : List Char) : Option Nat → Nat → List Char → List Char
  | _, _, [] => []
  | limit, skip + 1, _ :: cs => replaceLoop old new limit skip cs
  | limit, 0, c :: cs =>
    if limit ≠ some 0 ∧ old.isPrefixOf (c :: cs) then
      new ++ replaceLoop old new (limit.map Nat.pred) (old.length - 1) cs
    else
      c :: replaceLoop old new limit 0 cs

/-- The replacement loop of `strings.Replace` for an empty `old`: it matches at
the beginning of the string and after each character. -/
def replaceEmptyLoop (new : List Char) : Option Nat → List Char → List Char
  | _, [] => []
  | limit, c :: cs =>
    if limit = some 0 then c :: cs
    else c :: (new ++ replaceEmptyLoop new (limit.map Nat.pred) cs)

/-- Go `strings.Replace(s, old, new, n)`: a copy of `s` with the first `n`
non-overlapping instances of `old` replaced by `new`; no limit when `n < 0`. -/
def stringsReplace (s old new : String) (n : Int) : String :=
  if old = new ∨ n = 0 then s
  else
    let limit : Option Nat := if n < 0 then none else some n.toNat
    match old.data with
    | [] => ⟨new.data ++ replaceEmptyLoop new.data (limit.map Nat.pred) s.data⟩
    | _ :: _ => ⟨replaceLoop old.data new.data limit 0 s.data⟩

/-! ## `DeriveFields` (config.go, lines 45-50) -/

/-- DeriveFields automatically derives DockerStableTag if not specified.  The Go
method mutates its receiver; here it returns the updated value. -/
def ConfigData.DeriveFields (c : ConfigData) : ConfigData :=
  if c.DockerStableTag = "" then
    ConfigData.mk c.ClusterName c.KubernetesVersion c.UnifiedControlPlaneImage
      (AutoDerivedConfigData.mk (stringsReplace c.KubernetesVersion "+" "_" (-1)))
  else c

/-! ## `text/template` (Go standard library)

`Config` hands the template source to `template.New(..).Parse` and the parsed
template to `Execute`.  `TemplateEngine` is that interface; `Config` is written
against it.  `goTemplate` below is an executable model of the part of
`text/template` that `DefaultConfigTemplate` is written in. -/

/-- The two operations of `text/template` used by `Config`.  `Execute` returns the
contents of the output buffer after the run together with the error, if any:
the Go engine writes to the buffer as it goes, so output produced before a
failure stays in the buffer. -/
structure TemplateEngine where
  Template : Type
  Parse : String → Except String Template
  Execute : Template → ConfigData → String × Option String

/-- An operand of a template expression: a field chain `.A.B` or a string
constant. -/
inductive Operand where
  | field (names : List String)
  | lit (s : String)
  deriving DecidableEq, Repr

/-- The pipelines of the modelled fragment: a single operand, or the builtin
comparisons `ne` and `eq` applied to two operands. -/
inductive Expr where
  | operand (a : Operand)
  | ne (a b : Operand)
  | eq (a b : Operand)
  deriving DecidableEq, Repr

/-- A parsed template: a sequence of text nodes, action nodes and `if` nodes
(condition, list when true, list when false), each followed by the rest of the
sequence. -/
inductive Template where
  | done
  | text (s : String) (rest : Template)
  | action (e : Expr) (rest : Template)
  | cond (c : Expr) (thenList elseList rest : Template)
  deriving DecidableEq, Repr

/-! ### Lexing: text and actions -/

/-- A maximal piece of the source outside `{{ }}` or the inside of one action. -/
inductive Segment where
  | text (s : List Char)
  | action (body : List Char)
  deriving DecidableEq, Repr

/-- Where the scanner is: in plain text, inside an action, or inside a quoted
string of an action. -/
inductive ScanMode where
  | text
  | action
  | quoted
  deriving DecidableEq, Repr

/-- A text segment is emitted only when it is non-empty. -/
def flushText (acc : List Char) (segs : List Segment) : List Segment :=
  if acc = [] then segs else Segment.text acc.reverse :: segs

/-- Cut the source at the delimiters.  `acc` holds, reversed, the characters
of the segment being read.  A right delimiter inside a quoted string does not
close the action. -/
def scan : ScanMode → List Char → List Char → Except String (List Segment)
  | .text, acc, [] => .ok (flushText acc [])
  | .text, acc, '\x7b' :: '\x7b' :: rest => (scan .action [] rest).map (flushText acc)
  | .text, acc, c :: rest => scan .text (c :: acc) rest
  | .action, _, [] => .error "unclosed action"
  | .action, acc, '\x7d' :: '\x7d' :: rest =>
    (scan .text [] rest).map (fun segs => Segment.action acc.reverse :: segs)
  | .action, acc, '"' :: rest => scan .quoted ('"' :: acc) rest
  | .action, acc, c :: rest => scan .action (c :: acc) rest
  | .quoted, _, [] => .error "unterminated quoted string"
  | .quoted, acc, '"' :: rest => scan .action ('"' :: acc) rest
  | .quoted, acc, c :: rest =>
    if c = '\n' then .error "unterminated quoted string"
    else if c = '\\' then .error "escape sequences are outside the modelled fragment"
    else scan .quoted (c :: acc) rest

/-! ### Lexing: the tokens of an action -/

/-- The tokens of the modelled fragment: a field chain, a quoted string, an
identifier (keyword or function name). -/
inductive Token where
  | field (names : List String)
  | str (s : String)
  | ident (s : String)
  deriving DecidableEq, Repr

/-- Characters that make up fields and identifiers. -/
def isWordChar (c : Char) : Bool :=
  c.isAlphanum || c = '_' || c = '.'

/-- Characters that separate the tokens of an action. -/
def isSpace (c : Char) : Bool :=
  c = ' ' || c = '\t'

/-- Split at every `.`: `a.b` gives `[a, b]`, and `.A` gives `[[], A]`. -/
def splitDots : List Char → List Char → List (List Char)
  | acc, [] => [acc.reverse]
  | acc, c :: cs => if c = '.' then acc.reverse :: splitDots [] cs else splitDots (c :: acc) cs

/-- A name is a letter or underscore followed by letters, digits, underscores. -/
def isName (n : List Char) : Bool :=
  match n with
  | [] => false
  | c :: cs => (c.isAlpha || c = '_') && cs.all (fun x => x.isAlphanum || x = '_')

/-- Classify a run of word characters: `.A.B` is a field chain, a name is an
identifier; anything else (numbers, the bare dot) is outside the fragment. -/
def classify (w : List Char) : Except String Token :=
  match splitDots [] w with
  | [] :: n :: ns =>
    if (n :: ns).all isName then .ok (Token.field ((n :: ns).map String.mk))
    else .error "operand outside the modelled fragment"
  | [n] =>
    if isName n then .ok (Token.ident (String.mk n))
    else .error "operand outside the modelled fragment"
  | _ => .error "operand outside the modelled fragment"

/-- After a token comes a space or the end of the action. -/
def atTerminator : List Char → Bool
  | [] => true
  | c :: _ => isSpace c

/-- Tokenise the inside of an action.  `quoted` tells whether a string is being
read, `acc` holds the current token reversed. -/
def tokenize : Bool → List Char → List Char → Except String (List Token)
  | true, _, [] => .error "unterminated quoted string"
  | true, acc, c :: rest =>
    if c = '"' then
      if atTerminator rest then
        (tokenize false [] rest).map (fun ts => Token.str (String.mk acc.reverse) :: ts)
      else .error "bad character after quoted string"
    else tokenize true (c :: acc) rest
  | false, _, [] => .ok []
  | false, acc, c :: rest =>
    if isWordChar c then
      match rest with
      | [] => (classify (c :: acc).reverse).map (fun t => [t])
      | n :: _ =>
        if isWordChar n then tokenize false (c :: acc) rest
        else if isSpace n then
          match classify (c :: acc).reverse, tokenize false [] rest with
          | .ok t, .ok ts => .ok (t :: ts)
          | .error e, _ => .error e
          | _, .error e => .error e
        else .error "bad character in action"
    else if isSpace c then tokenize false [] rest
    else if c = '"' then tokenize true [] rest
    else .error "character outside the modelled fragment"

/-! ### Parsing -/

/-- What one segment of the source parses to: text, an action to print, or one
of the control actions `if`, `else`, `end`. -/
inductive Item where
  | text (s : String)
  | action (e : Expr)
  | ifStart (c : Expr)
  | elseMark
  | endMark
  deriving DecidableEq, Repr

/-- An operand token. -/
def parseOperand : Token → Except String Operand
  | .field names => .ok (Operand.field names)
  | .str s => .ok (Operand.lit s)
  | .ident _ => .error "function call outside the modelled fragment"

/-- The pipeline of an action: one operand, or `ne`/`eq` with two operands. -/
def parsePipeline : List Token → Except String Expr
  | [] => .error "missing value for command"
  | [.ident f, a, b] =>
    if f = "ne" then
      match parseOperand a, parseOperand b with
      | .ok x, .ok y => .ok (Expr.ne x y)
      | .error e, _ => .error e
      | _, .error e => .error e
    else if f = "eq" then
      match parseOperand a, parseOperand b with
      | .ok x, .ok y => .ok (Expr.eq x y)
      | .error e, _ => .error e
      | _, .error e => .error e
    else .error "function outside the modelled fragment"
  | [t] => (parseOperand t).map Expr.operand
  | _ => .error "pipeline outside the modelled fragment"

/-- The action between one pair of delimiters. -/
def parseAction : List Token → Except String Item
  | .ident w :: ts =>
    if w = "if" then (parsePipeline ts).map Item.ifStart
    else if w = "else" then
      if ts = [] then .ok Item.elseMark else .error "else-if is outside the modelled fragment"
    else if w = "end" then
      if ts = [] then .ok Item.endMark else .error "unexpected token in end"
    else (parsePipeline (.ident w :: ts)).map Item.action
  | ts => (parsePipeline ts).map Item.action

/-- Lex and parse every segment on its own. -/
def parseSegments : List Segment → Except String (List Item)
  | [] => .ok []
  | .text s :: segs => (parseSegments segs).map (fun is => Item.text (String.mk s) :: is)
  | .action body :: segs =>
    match tokenize false [] body with
    | .error e => .error e
    | .ok ts =>
      match parseAction ts, parseSegments segs with
      | .ok i, .ok is => .ok (i :: is)
      | .error e, _ => .error e
      | _, .error e => .error e

/-- What ended a list of nodes. -/
inductive Stop where
  | eof
  | elseMark
  | endMark
  deriving DecidableEq, Repr

/-- Read a list of nodes up to the end of input or an unmatched `else`/`end`, as
the parser of `text/template` does (`itemList`, `parseControl`).  Returns the
list, what stopped it and the items that follow.  The first argument bounds the
recursion depth. -/
def parseList : Nat → List Item → Except String (Template × Stop × List Item)
  | 0, _ => .error "template too deeply nested"
  | _ + 1, [] => .ok (Template.done, Stop.eof, [])
  | _ + 1, .elseMark :: r => .ok (Template.done, Stop.elseMark, r)
  | _ + 1, .endMark :: r => .ok (Template.done, Stop.endMark, r)
  | f + 1, .text s :: r =>
    match parseList f r with
    | .error e => .error e
    | .ok (t, st, r1) => .ok (Template.text s t, st, r1)
  | f + 1, .action e :: r =>
    match parseList f r with
    | .error e => .error e
    | .ok (t, st, r1) => .ok (Template.action e t, st, r1)
  | f + 1, .ifStart c :: r =>
    match parseList f r with
    | .error e => .error e
    | .ok (_, Stop.eof, _) => .error "unexpected EOF"
    | .ok (thenList, Stop.endMark, r1) =>
      match parseList f r1 with
      | .error e => .error e
      | .ok (t, st, r2) => .ok (Template.cond c thenList Template.done t, st, r2)
    | .ok (thenList, Stop.elseMark, r1) =>
      match parseList f r1 with
      | .error e => .error e
      | .ok (_, Stop.eof, _) => .error "unexpected EOF"
      | .ok (_, Stop.elseMark, _) => .error "expected end; found else"
      | .ok (elseList, Stop.endMark, r2) =>
        match parseList f r2 with
        | .error e => .error e
        | .ok (t, st, r3) => .ok (Template.cond c thenList elseList t, st, r3)

/-- Model of `Parse`: scan, tokenise and build the tree.  Every call of
`parseList` consumes an item, so one more level than there are items is
enough.  The diagnostic of a failure is a short description of the cause, not
the text of the library, which also carries the template name and the line;
the statements below are about whether parsing fails, never about that text.
A source outside the modelled fragment is reported as a failure as well. -/
def parseTemplate (src : String) : Except String Template :=
  match scan ScanMode.text [] src.data with
  | .error e => .error e
  | .ok segs =>
    match parseSegments segs with
    | .error e => .error e
    | .ok items =>
      match parseList (items.length + 1) items with
      | .error e => .error e
      | .ok (t, Stop.eof, _) => .ok t
      | .ok (_, Stop.elseMark, _) => .error "unexpected else"
      | .ok (_, Stop.endMark, _) => .error "unexpected end"

/-! ### Execution -/

/-- The values of the modelled fragment: the string fields of `ConfigData`, the
embedded struct, and the booleans returned by the comparisons. -/
inductive Value where
  | str (s : String)
  | bool (b : Bool)
  | derived (a : AutoDerivedConfigData)
  deriving DecidableEq, Repr

/-- Field lookup on a `ConfigData` value by name.  The embedded struct is a
field of its own and its field `DockerStableTag` is promoted.  A name that is
not a field is an execution error. -/
def lookupField (d : ConfigData) (name : String) : Except String Value :=
  if name = "ClusterName" then .ok (Value.str d.ClusterName)
  else if name = "KubernetesVersion" then .ok (Value.str d.KubernetesVersion)
  else if name = "UnifiedControlPlaneImage" then .ok (Value.str d.UnifiedControlPlaneImage)
  else if name = "AutoDerivedConfigData" then .ok (Value.derived d.AutoDerivedConfigData)
  else if name = "DockerStableTag" then .ok (Value.str d.DockerStableTag)
  else .error ("can't evaluate field " ++ name ++ " in type kubeadm.ConfigData")

/-- Follow the rest of a field chain from a value. -/
def evalChain : Value → List String → Except String Value
  | v, [] => .ok v
  | .derived a, name :: names =>
    if name = "DockerStableTag" then evalChain (Value.str a.DockerStableTag) names
    else .error ("can't evaluate field " ++ name ++ " in type kubeadm.AutoDerivedConfigData")
  | .str _, name :: _ => .error ("can't evaluate field " ++ name ++ " in type string")
  | .bool _, name :: _ => .error ("can't evaluate field " ++ name ++ " in type bool")

/-- Evaluate an operand against the data. -/
def evalOperand (d : ConfigData) : Operand → Except String Value
  | .lit s => .ok (Value.str s)
  | .field [] => .error "empty field chain"
  | .field (name :: names) =>
    match lookupField d name with
    | .error e => .error e
    | .ok v => evalChain v names

/-- The builtin `eq` on two values: strings are compared, a struct is not of a
basic kind. -/
def builtinEq : Value → Value → Except String Bool
  | .str a, .str b => .ok (decide (a = b))
  | .bool a, .bool b => .ok (decide (a = b))
  | .str _, .bool _ => .error "incompatible types for comparison"
  | .bool _, .str _ => .error "incompatible types for comparison"
  | _, _ => .error "invalid type for comparison"

/-- Evaluate a pipeline against the data. -/
def evalExpr (d : ConfigData) : Expr → Except String Value
  | .operand a => evalOperand d a
  | .eq a b =>
    match evalOperand d a, evalOperand d b with
    | .ok x, .ok y => (builtinEq x y).map Value.bool
    | .error e, _ => .error e
    | _, .error e => .error e
  | .ne a b =>
    match evalOperand d a, evalOperand d b with
    | .ok x, .ok y => (builtinEq x y).map (fun r => Value.bool (!r))
    | .error e, _ => .error e
    | _, .error e => .error e

/-- Truth of a value in `if`: a string is true when it is non-empty, a struct
always. -/
def Value.isTrue : Value → Bool
  | .str s => decide (s ≠ "")
  | .bool b => b
  | .derived _ => true

/-- The text an action prints for a value (`fmt.Fprint`). -/
def Value.print : Value → String
  | .str s => s
  | .bool b => if b then "true" else "false"
  | .derived a => "\x7b" ++ a.DockerStableTag ++ "\x7d"

/-- Walk the template, appending to the buffer `buff`.  On an error the walk
stops and the buffer keeps what was written so far.  The diagnostic of a
failure is a short description of the cause, not the text of the library, which
also carries the template name, the position and the failing node. -/
def execTemplate (d : ConfigData) : Template → String → String × Option String
  | .done, buff => (buff, none)
  | .text s rest, buff => execTemplate d rest (buff ++ s)
  | .action e rest, buff =>
    match evalExpr d e with
    | .error err => (buff, some err)
    | .ok v => execTemplate d rest (buff ++ v.print)
  | .cond c thenList elseList rest, buff =>
    match evalExpr d c with
    | .error err => (buff, some err)
    | .ok v =>
      match (if v.isTrue then execTemplate d thenList buff else execTemplate d elseList buff) with
      | (buff1, some err) => (buff1, some err)
      | (buff1, none) => execTemplate d rest buff1

/-- The model of `text/template` restricted to text, field actions, string
constants, `if`/`else`/`end` and the comparisons `eq` and `ne`.  Sources that
use anything else are reported as errors by `Parse`, so the model is used only
on sources of the fragment; which of `Parse` and `Execute` fails there, and the
text written, follow the library, the wording of the diagnostics does not. -/
def goTemplate : TemplateEngine :=
  TemplateEngine.mk Template parseTemplate (fun t d => execTemplate d t "")

/-! ## `DefaultConfigTemplate` and `Config` (config.go, lines 52-88) -/

/-- DefaultConfigTemplate is the default kubeadm config template used by kind. -/
def DefaultConfigTemplate : String :=
  "# config generated by kind\n" ++
  "apiVersion: kubeadm.k8s.io/v1alpha2\n" ++
  "kind: MasterConfiguration\n" ++
  "clusterName: \x7b\x7b.ClusterName\x7d\x7d\n" ++
  "# on docker for mac we have to expose the api server via port forward,\n" ++
  "# so we need to ensure the cert is valid for localhost so we can talk\n" ++
  "# to the cluster after rewriting the kubeconfig to point to localhost\n" ++
  "apiServerCertSANs: [localhost]\n" ++
  "kubernetesVersion: \x7b\x7b.KubernetesVersion\x7d\x7d\n" ++
  "\x7b\x7bif ne .UnifiedControlPlaneImage \"\"\x7d\x7d\n" ++
  "# optionally specify a unified control plane image\n" ++
  "unifiedControlPlaneImage: \x7b\x7b.UnifiedControlPlaneImage\x7d\x7d:\x7b\x7b.DockerStableTag\x7d\x7d\n" ++
  "\x7b\x7bend\x7d\x7d"

/-- An error made by `errors.Wrap(cause, message)`. -/
structure WrappedError where
  cause : String
  message : String
  deriving DecidableEq, Repr

/-- The text of a wrapped error: the message, a colon, the cause. -/
def WrappedError.Error (e : WrappedError) : String :=
  e.message ++ ": " ++ e.cause

/-- Config returns a kubeadm config from the template and config data; if
`templateSource` is empty, `DefaultConfigTemplate` is used instead. -/
def Config (E : TemplateEngine) (templateSource : String) (data : ConfigData) :
    String × Option WrappedError :=
  let templateSource := if templateSource = "" then DefaultConfigTemplate else templateSource
  match E.Parse templateSource with
  | .error err => ("", some (WrappedError.mk err "failed to parse config template"))
  | .ok t =>
    let data := data.DeriveFields
    match E.Execute t data with
    | (_, some err) => ("", some (WrappedError.mk err "error executing config template"))
    | (buff, none) => (buff, none)

/-- The tree that `DefaultConfigTemplate` parses to. -/
def defaultTree : Template :=
  Template.text ("# config generated by kind\n" ++
      "apiVersion: kubeadm.k8s.io/v1alpha2\n" ++
      "kind: MasterConfiguration\n" ++
      "clusterName: ")
    (Template.action (Expr.operand (Operand.field ["ClusterName"]))
    (Template.text ("\n" ++
      "# on docker for mac we have to expose the api server via port forward,\n" ++
      "# so we need to ensure the cert is valid for localhost so we can talk\n" ++
      "# to the cluster after rewriting the kubeconfig to point to localhost\n" ++
      "apiServerCertSANs: [localhost]\n" ++
      "kubernetesVersion: ")
    (Template.action (Expr.operand (Operand.field ["KubernetesVersion"]))
    (Template.text "\n"
    (Template.cond (Expr.ne (Operand.field ["UnifiedControlPlaneImage"]) (Operand.lit ""))
      (Template.text ("\n# optionally specify a unified control plane image\n" ++
          "unifiedControlPlaneImage: ")
        (Template.action (Expr.operand (Operand.field ["UnifiedControlPlaneImage"]))
        (Template.text ":"
        (Template.action (Expr.operand (Operand.field ["DockerStableTag"]))
        (Template.text "\n" Template.done)))))
      Template.done
      Template.done)))))

/-! ## Specification-side vocabulary -/

/-- Spec wording for the derivation rule on one character: `+` is replaced by
`_`, every other character is kept. -/
def plusToUnderscore (ch : Char) : Char :=
  if ch = '+' then '_' else ch

/-- A string contains `+`. -/
def hasPlus (s : String) : Prop :=
  '+' ∈ s.data

instance (s : String) : Decidable (hasPlus s) :=
  inferInstanceAs (Decidable ('+' ∈ s.data))

/-- The default template up to and including the `kubernetesVersion` line, with
the two names interpolated. -/
def defaultHead (clusterName kubernetesVersion : String) : String :=
  "# config generated by kind\n" ++
  "apiVersion: kubeadm.k8s.io/v1alpha2\n" ++
  "kind: MasterConfiguration\n" ++
  "clusterName: " ++ clusterName ++ "\n" ++
  "# on docker for mac we have to expose the api server via port forward,\n" ++
  "# so we need to ensure the cert is valid for localhost so we can talk\n" ++
  "# to the cluster after rewriting the kubeconfig to point to localhost\n" ++
  "apiServerCertSANs: [localhost]\n" ++
  "kubernetesVersion: " ++ kubernetesVersion ++ "\n"

/-- The conditional block of the default template, with the image and the tag
interpolated. -/
def defaultImageBlock (image tag : String) : String :=
  "\n# optionally specify a unified control plane image\n" ++
  "unifiedControlPlaneImage: " ++ image ++ ":" ++ tag ++ "\n"

/-- Spec wording for the tag the template is executed with: the supplied
`DockerStableTag` when it is non-empty, otherwise `KubernetesVersion` with every
`+` replaced by `_`. -/
def expectedTag (d : ConfigData) : String :=
  if d.DockerStableTag ≠ "" then d.DockerStableTag
  else String.mk (d.KubernetesVersion.data.map plusToUnderscore)

/-- Walk a text and tell whether some line begins with `p`.  The flag says
whether the position reached is the beginning of a line: the beginning of the
text, or the position after a line feed. -/
def scanLines (p : List Char) : Bool → List Char → Bool
  | atStart, [] => atStart && p.isPrefixOf []
  | atStart, c :: cs => (atStart && p.isPrefixOf (c :: cs)) || scanLines p (decide (c = '\n')) cs

/-- Spec wording: some line of `text` begins with `p`. -/
def hasLineStarting (p text : String) : Bool :=
  scanLines p.data true text.data

/-- Some position of the text is followed by `p`. -/
def hasInfix (p : List Char) : List Char → Bool
  | [] => p.isPrefixOf []
  | c :: cs => p.isPrefixOf (c :: cs) || hasInfix p cs

/-- Spec wording: `s` contains a line feed directly followed by `p`. -/
def hasLineFeedThen (p s : String) : Bool :=
  hasInfix ('\n' :: p.data) s.data

/-- Two texts differ at a position that both have. -/
def mismatch : List Char → List Char → Bool
  | a :: as, b :: bs => a != b || mismatch as bs
  | _, _ => false

/-- No line that begins inside `xs` can begin with `p`, whatever follows `xs`,
and `xs` does not end at the beginning of a line. -/
def clearOf (p : List Char) : Bool → List Char → Bool
  | atStart, [] => !atStart
  | atStart, c :: cs => (!atStart || mismatch p (c :: cs)) && clearOf p (decide (c = '\n')) cs

/-- The text of the default template before `ClusterName` is interpolated. -/
def headBeforeName : List Char :=
  ("# config generated by kind\n" ++
   "apiVersion: kubeadm.k8s.io/v1alpha2\n" ++
   "kind: MasterConfiguration\n" ++
   "clusterName: ").data

/-- The text of the default template between the line feed that follows
`ClusterName` and the place where `KubernetesVersion` is interpolated. -/
def headBeforeVersion : List Char :=
  ("# on docker for mac we have to expose the api server via port forward,\n" ++
   "# so we need to ensure the cert is valid for localhost so we can talk\n" ++
   "# to the cluster after rewriting the kubeconfig to point to localhost\n" ++
   "apiServerCertSANs: [localhost]\n" ++
   "kubernetesVersion: ").data

/-! ## Lemmas on `strings.Replace` -/

theorem replaceLoop_plus (cs : List Char) :
    replaceLoop ['+'] ['_'] none 0 cs = cs.map plusToUnderscore := by
  induction cs with
  | nil => simp [replaceLoop]
  | cons c cs ih =>
    by_cases hc : c = '+'
    · subst hc
      simp [replaceLoop, ih, plusToUnderscore, List.isPrefixOf]
    · have hc2 : ¬ '+' = c := fun h => hc h.symm
      simp [replaceLoop, ih, plusToUnderscore, List.isPrefixOf, hc, hc2]

theorem stringsReplace_plus (s : String) :
    (stringsReplace s "+" "_" (-1)).data = s.data.map plusToUnderscore := by
  have h : ¬ ("+" = "_" ∨ (-1 : Int) = 0) := by decide
  have hd : ("+" : String).data = ['+'] := rfl
  have hn : ("_" : String).data = ['_'] := rfl
  simp only [stringsReplace, if_neg h, hd, hn]
  simp [replaceLoop_plus]

theorem DeriveFields_of_empty (c : ConfigData) (h : c.DockerStableTag = "") :
    c.DeriveFields = ConfigData.mk c.ClusterName c.KubernetesVersion c.UnifiedControlPlaneImage
      (AutoDerivedConfigData.mk (stringsReplace c.KubernetesVersion "+" "_" (-1))) := by
  simp [ConfigData.DeriveFields, h]

theorem DeriveFields_of_nonempty (c : ConfigData) (h : c.DockerStableTag ≠ "") :
    c.DeriveFields = c := by
  simp [ConfigData.DeriveFields, h]

theorem DeriveFields_fields (c : ConfigData) :
    c.DeriveFields = ConfigData.mk c.ClusterName c.KubernetesVersion c.UnifiedControlPlaneImage
      (AutoDerivedConfigData.mk c.DeriveFields.DockerStableTag) := by
  by_cases he : c.DockerStableTag = ""
  · rw [DeriveFields_of_empty c he]
    rfl
  · rw [DeriveFields_of_nonempty c he]
    rfl

theorem DeriveFields_twice (c : ConfigData) : c.DeriveFields.DeriveFields = c.DeriveFields := by
  by_cases h : c.DockerStableTag = ""
  · rw [DeriveFields_of_empty c h]
    by_cases h2 : stringsReplace c.KubernetesVersion "+" "_" (-1) = ""
    · simp [ConfigData.DeriveFields, ConfigData.DockerStableTag, h2]
    · simp [ConfigData.DeriveFields, ConfigData.DockerStableTag, h2]
  · rw [DeriveFields_of_nonempty c h, DeriveFields_of_nonempty c h]

theorem data_ne_nil_of_ne_empty (s : String) (h : s ≠ "") : s.data ≠ [] := by
  intro hd
  apply h
  exact String.ext hd

/-! ## Claims on `DeriveFields` -/

/-- C1: when `DockerStableTag` is empty, `DeriveFields` sets it to
`KubernetesVersion` with every `+` replaced by `_`: the result of
`strings.Replace` has the length of `KubernetesVersion`, and at every position
its character is `_` where `KubernetesVersion` has `+` and the character of
`KubernetesVersion` otherwise. -/
theorem DeriveFields_sets_tag (c : ConfigData) (h : c.DockerStableTag = "") :
    c.DeriveFields.DockerStableTag = stringsReplace c.KubernetesVersion "+" "_" (-1) ∧
    c.DeriveFields.DockerStableTag.length = c.KubernetesVersion.length ∧
    ∀ i : Nat, c.DeriveFields.DockerStableTag.data[i]? =
      (c.KubernetesVersion.data[i]?).map (fun ch => if ch = '+' then '_' else ch) := by
  rw [DeriveFields_of_empty c h]
  refine ⟨rfl, ?_, ?_⟩
  · show (stringsReplace c.KubernetesVersion "+" "_" (-1)).data.length = _
    rw [stringsReplace_plus]
    exact List.length_map _ _
  · intro i
    show (stringsReplace c.KubernetesVersion "+" "_" (-1)).data[i]? = _
    rw [stringsReplace_plus, List.getElem?_map]
    rfl

/-- Witness of C1 at `KubernetesVersion = "v1.18.2+abc"` with no tag supplied. -/
theorem DeriveFields_sets_tag_witness :
    (ConfigData.mk "kind" "v1.18.2+abc" "" (AutoDerivedConfigData.mk "")).DockerStableTag = "" ∧
    (ConfigData.mk "kind" "v1.18.2+abc" "" (AutoDerivedConfigData.mk "")).DeriveFields.DockerStableTag
      = "v1.18.2_abc" :=
  ⟨by decide,
   ((DeriveFields_sets_tag (ConfigData.mk "kind" "v1.18.2+abc" "" (AutoDerivedConfigData.mk ""))
      (by decide)).1).trans (by decide)⟩

/-- C2: when `DockerStableTag` is non-empty before `DeriveFields`, it is the same
after, whatever `KubernetesVersion` is. -/
theorem DeriveFields_keeps_supplied_tag (c : ConfigData) (h : c.DockerStableTag ≠ "") :
    c.DeriveFields.DockerStableTag = c.DockerStableTag := by
  rw [DeriveFields_of_nonempty c h]

/-- Witness of C2: the supplied tag `mytag` survives a version with a `+`. -/
theorem DeriveFields_keeps_supplied_tag_witness :
    (ConfigData.mk "kind" "v1.18.2+abc" "" (AutoDerivedConfigData.mk "mytag")).DockerStableTag ≠ "" ∧
    (ConfigData.mk "kind" "v1.18.2+abc" "" (AutoDerivedConfigData.mk "mytag")).DeriveFields.DockerStableTag
      = "mytag" :=
  ⟨by decide,
   DeriveFields_keeps_supplied_tag
     (ConfigData.mk "kind" "v1.18.2+abc" "" (AutoDerivedConfigData.mk "mytag")) (by decide)⟩

/-- C3: `DeriveFields` is idempotent: applying it twice gives the same `ConfigData`,
in all four fields, as applying it once. -/
theorem DeriveFields_idempotent (x : ConfigData) :
    x.DeriveFields.DeriveFields = x.DeriveFields :=
  DeriveFields_twice x

/-- C4, as stated, fails: a supplied tag `a+b` is kept by `DeriveFields`, so the
tag after derivation contains `+`. -/
theorem DeriveFields_tag_may_keep_plus :
    (ConfigData.mk "kind" "v1.18.2" "" (AutoDerivedConfigData.mk "a+b")).DeriveFields.DockerStableTag
      = "a+b" ∧
    hasPlus
      (ConfigData.mk "kind" "v1.18.2" "" (AutoDerivedConfigData.mk "a+b")).DeriveFields.DockerStableTag := by
  decide

/-- C4, amended: when the `DockerStableTag` before `DeriveFields` contains no `+`
(in particular when it is empty), the `DockerStableTag` after contains no `+`. -/
theorem DeriveFields_tag_plus_free (c : ConfigData) (h : ¬ hasPlus c.DockerStableTag) :
    ¬ hasPlus c.DeriveFields.DockerStableTag := by
  by_cases he : c.DockerStableTag = ""
  · rw [DeriveFields_of_empty c he]
    show ¬ '+' ∈ (stringsReplace c.KubernetesVersion "+" "_" (-1)).data
    rw [stringsReplace_plus]
    simp only [List.mem_map, not_exists, not_and]
    intro ch _ hch
    unfold plusToUnderscore at hch
    split at hch
    · exact absurd hch (by decide)
    · contradiction
  · rw [DeriveFields_of_nonempty c he]
    exact h

/-- Witness of C4 amended: no tag supplied and a version with a `+`. -/
theorem DeriveFields_tag_plus_free_witness :
    ¬ hasPlus (ConfigData.mk "kind" "v1.18.2+abc" "" (AutoDerivedConfigData.mk "")).DockerStableTag ∧
    ¬ hasPlus
      (ConfigData.mk "kind" "v1.18.2+abc" "" (AutoDerivedConfigData.mk "")).DeriveFields.DockerStableTag :=
  ⟨by decide,
   DeriveFields_tag_plus_free
     (ConfigData.mk "kind" "v1.18.2+abc" "" (AutoDerivedConfigData.mk "")) (by decide)⟩

/-- C5: when `KubernetesVersion` is non-empty, `DockerStableTag` is non-empty after
`DeriveFields`. -/
theorem DeriveFields_tag_nonempty (c : ConfigData) (h : c.KubernetesVersion ≠ "") :
    c.DeriveFields.DockerStableTag ≠ "" := by
  by_cases he : c.DockerStableTag = ""
  · rw [DeriveFields_of_empty c he]
    intro hr
    have hd : (stringsReplace c.KubernetesVersion "+" "_" (-1)).data = [] := by
      have := congrArg String.data hr
      exact this
    rw [stringsReplace_plus] at hd
    exact data_ne_nil_of_ne_empty _ h (List.map_eq_nil_iff.mp hd)
  · rw [DeriveFields_of_nonempty c he]
    exact he

/-- Witness of C5 at the version `+`, the shortest one whose every character is
replaced. -/
theorem DeriveFields_tag_nonempty_witness :
    (ConfigData.mk "" "+" "" (AutoDerivedConfigData.mk "")).KubernetesVersion ≠ "" ∧
    (ConfigData.mk "" "+" "" (AutoDerivedConfigData.mk "")).DeriveFields.DockerStableTag ≠ "" :=
  ⟨by decide,
   DeriveFields_tag_nonempty (ConfigData.mk "" "+" "" (AutoDerivedConfigData.mk "")) (by decide)⟩

/-- C6: `DeriveFields` leaves `ClusterName`, `KubernetesVersion` and
`UnifiedControlPlaneImage` as they were; only `DockerStableTag` can differ. -/
theorem DeriveFields_frame (c : ConfigData) :
    c.DeriveFields.ClusterName = c.ClusterName ∧
    c.DeriveFields.KubernetesVersion = c.KubernetesVersion ∧
    c.DeriveFields.UnifiedControlPlaneImage = c.UnifiedControlPlaneImage ∧
    c.DeriveFields = ConfigData.mk c.ClusterName c.KubernetesVersion c.UnifiedControlPlaneImage
      (AutoDerivedConfigData.mk c.DeriveFields.DockerStableTag) := by
  have h := DeriveFields_fields c
  refine ⟨?_, ?_, ?_, h⟩
  · rw [h]
  · rw [h]
  · rw [h]

/-! ## Claims on `Config` -/

/-- C7: for every template engine and every data, `Config` with the empty
template source returns the same pair (text, error) as `Config` with
`DefaultConfigTemplate`. -/
theorem Config_empty_source_is_default (E : TemplateEngine) (d : ConfigData) :
    Config E "" d = Config E DefaultConfigTemplate d := by
  have h : (if DefaultConfigTemplate = "" then DefaultConfigTemplate else DefaultConfigTemplate)
      = DefaultConfigTemplate := ite_self _
  simp only [Config, if_true, h]

/-- C8: for every template engine, source and data, when `Config` returns an
error the returned text is empty, on the parse branch and on the execution
branch, whatever the output buffer holds. -/
theorem Config_error_text_empty (E : TemplateEngine) (templateSource : String) (d : ConfigData)
    (h : (Config E templateSource d).2 ≠ none) : (Config E templateSource d).1 = "" := by
  unfold Config at h ⊢
  simp only at h ⊢
  split
  · rfl
  · split
    · rfl
    · rename_i h1 _ _ h2
      rw [h1] at h
      simp only [h2] at h
      exact absurd rfl h

/-- Witness of C8: the field `NoSuchField` does not exist, execution fails after
the text before the action was written, and `Config` returns the empty text. -/
theorem Config_error_text_empty_witness :
    (Config goTemplate "clusterName: \x7b\x7b.NoSuchField\x7d\x7d"
      (ConfigData.mk "kind" "v1.18.2" "" (AutoDerivedConfigData.mk ""))).2 ≠ none ∧
    (Config goTemplate "clusterName: \x7b\x7b.NoSuchField\x7d\x7d"
      (ConfigData.mk "kind" "v1.18.2" "" (AutoDerivedConfigData.mk ""))).1 = "" :=
  ⟨by decide,
   Config_error_text_empty goTemplate "clusterName: \x7b\x7b.NoSuchField\x7d\x7d"
     (ConfigData.mk "kind" "v1.18.2" "" (AutoDerivedConfigData.mk "")) (by decide)⟩

/-! ## The default template under the model of `text/template` -/

set_option maxRecDepth 100000 in
theorem parse_DefaultConfigTemplate :
    goTemplate.Parse DefaultConfigTemplate = .ok defaultTree := by
  rfl

set_option maxRecDepth 100000 in
theorem exec_defaultTree (d : ConfigData) :
    execTemplate d defaultTree "" =
      (if d.UnifiedControlPlaneImage = "" then defaultHead d.ClusterName d.KubernetesVersion
       else defaultHead d.ClusterName d.KubernetesVersion ++
         defaultImageBlock d.UnifiedControlPlaneImage d.DockerStableTag, none) := by
  by_cases h : d.UnifiedControlPlaneImage = ""
  · simp [defaultTree, execTemplate, evalExpr, evalOperand, lookupField, evalChain, builtinEq,
      Value.isTrue, Value.print, h, defaultHead, Except.map]
    apply String.ext
    simp only [String.data_append, List.append_assoc]
    rfl
  · simp [defaultTree, execTemplate, evalExpr, evalOperand, lookupField, evalChain, builtinEq,
      Value.isTrue, Value.print, h, defaultHead, defaultImageBlock, Except.map]
    apply String.ext
    simp only [String.data_append, List.append_assoc]
    rfl

/-- What `Config` returns for the empty template source, for every data. -/
theorem Config_default (d : ConfigData) :
    Config goTemplate "" d =
      (if d.UnifiedControlPlaneImage = "" then defaultHead d.ClusterName d.KubernetesVersion
       else defaultHead d.ClusterName d.KubernetesVersion ++
         defaultImageBlock d.UnifiedControlPlaneImage d.DeriveFields.DockerStableTag, none) := by
  have hf := DeriveFields_fields d
  have h1 : d.DeriveFields.ClusterName = d.ClusterName := by rw [hf]
  have h2 : d.DeriveFields.KubernetesVersion = d.KubernetesVersion := by rw [hf]
  have h3 : d.DeriveFields.UnifiedControlPlaneImage = d.UnifiedControlPlaneImage := by rw [hf]
  have hx : goTemplate.Execute defaultTree d.DeriveFields
      = execTemplate d.DeriveFields defaultTree "" := rfl
  simp only [Config, if_true, parse_DefaultConfigTemplate, hx, exec_defaultTree, h1, h2, h3]

theorem DeriveFields_tag_eq_expectedTag (d : ConfigData) :
    d.DeriveFields.DockerStableTag = expectedTag d := by
  by_cases he : d.DockerStableTag = ""
  · rw [DeriveFields_of_empty d he]
    simp only [expectedTag, he, ne_eq, not_true_eq_false, if_false]
    exact String.ext (stringsReplace_plus d.KubernetesVersion)
  · rw [DeriveFields_of_nonempty d he]
    simp [expectedTag, he]

/-- C9: with `UnifiedControlPlaneImage` empty, `Config` with the empty template
source returns no error and the default template up to and including the
`kubernetesVersion` line, `ClusterName` and `KubernetesVersion` interpolated as
they are; the text ends with the `kubernetesVersion` line and the conditional
block is absent. -/
theorem Config_default_without_image (d : ConfigData) (h : d.UnifiedControlPlaneImage = "") :
    Config goTemplate "" d = (defaultHead d.ClusterName d.KubernetesVersion, none) ∧
    ∃ pre : String, (Config goTemplate "" d).1 =
      pre ++ ("kubernetesVersion: " ++ d.KubernetesVersion ++ "\n") := by
  have hc : Config goTemplate "" d = (defaultHead d.ClusterName d.KubernetesVersion, none) := by
    rw [Config_default, if_pos h]
  refine ⟨hc, ?_⟩
  rw [hc]
  refine ⟨"# config generated by kind\n" ++
    "apiVersion: kubeadm.k8s.io/v1alpha2\n" ++
    "kind: MasterConfiguration\n" ++
    "clusterName: " ++ d.ClusterName ++ "\n" ++
    "# on docker for mac we have to expose the api server via port forward,\n" ++
    "# so we need to ensure the cert is valid for localhost so we can talk\n" ++
    "# to the cluster after rewriting the kubeconfig to point to localhost\n" ++
    "apiServerCertSANs: [localhost]\n", ?_⟩
  apply String.ext
  simp only [defaultHead, String.data_append, List.append_assoc]

set_option maxRecDepth 100000 in
/-- Witness of C9 at cluster `kind`, version `v1.18.2`, no image: the exact text
returned. -/
theorem Config_default_without_image_witness :
    (ConfigData.mk "kind" "v1.18.2" "" (AutoDerivedConfigData.mk "")).UnifiedControlPlaneImage = "" ∧
    Config goTemplate "" (ConfigData.mk "kind" "v1.18.2" "" (AutoDerivedConfigData.mk "")) =
      ("# config generated by kind\n" ++
       "apiVersion: kubeadm.k8s.io/v1alpha2\n" ++
       "kind: MasterConfiguration\n" ++
       "clusterName: kind\n" ++
       "# on docker for mac we have to expose the api server via port forward,\n" ++
       "# so we need to ensure the cert is valid for localhost so we can talk\n" ++
       "# to the cluster after rewriting the kubeconfig to point to localhost\n" ++
       "apiServerCertSANs: [localhost]\n" ++
       "kubernetesVersion: v1.18.2\n", none) :=
  ⟨rfl,
   ((Config_default_without_image
      (ConfigData.mk "kind" "v1.18.2" "" (AutoDerivedConfigData.mk "")) rfl).1).trans (by decide)⟩

/-- C10: with a non-empty `UnifiedControlPlaneImage`, `Config` with the empty
template source returns no error and a text that ends with the comment line and
the line `unifiedControlPlaneImage: image:tag`, where the tag is the supplied
`DockerStableTag` when non-empty and otherwise `KubernetesVersion` with every `+`
replaced by `_`. -/
theorem Config_default_with_image (d : ConfigData) (h : d.UnifiedControlPlaneImage ≠ "") :
    Config goTemplate "" d =
      (defaultHead d.ClusterName d.KubernetesVersion ++
        ("\n# optionally specify a unified control plane image\n" ++
         "unifiedControlPlaneImage: " ++ d.UnifiedControlPlaneImage ++ ":" ++ expectedTag d ++ "\n"),
       none) ∧
    ∃ pre : String, (Config goTemplate "" d).1 =
      pre ++ ("\n# optionally specify a unified control plane image\n" ++
        "unifiedControlPlaneImage: " ++ d.UnifiedControlPlaneImage ++ ":" ++ expectedTag d ++ "\n") := by
  have hc : Config goTemplate "" d =
      (defaultHead d.ClusterName d.KubernetesVersion ++
        ("\n# optionally specify a unified control plane image\n" ++
         "unifiedControlPlaneImage: " ++ d.UnifiedControlPlaneImage ++ ":" ++ expectedTag d ++ "\n"),
       none) := by
    rw [Config_default, if_neg h, DeriveFields_tag_eq_expectedTag]
    rfl
  exact ⟨hc, defaultHead d.ClusterName d.KubernetesVersion, by rw [hc]⟩

set_option maxRecDepth 100000 in
/-- Witness of C10 at image `myimage`, version `v1.18.2`, no tag supplied: the
exact text returned, whose last line is `unifiedControlPlaneImage: myimage:v1.18.2`. -/
theorem Config_default_with_image_witness :
    (ConfigData.mk "kind" "v1.18.2" "myimage" (AutoDerivedConfigData.mk "")).UnifiedControlPlaneImage
      ≠ "" ∧
    Config goTemplate "" (ConfigData.mk "kind" "v1.18.2" "myimage" (AutoDerivedConfigData.mk "")) =
      ("# config generated by kind\n" ++
       "apiVersion: kubeadm.k8s.io/v1alpha2\n" ++
       "kind: MasterConfiguration\n" ++
       "clusterName: kind\n" ++
       "# on docker for mac we have to expose the api server via port forward,\n" ++
       "# so we need to ensure the cert is valid for localhost so we can talk\n" ++
       "# to the cluster after rewriting the kubeconfig to point to localhost\n" ++
       "apiServerCertSANs: [localhost]\n" ++
       "kubernetesVersion: v1.18.2\n" ++
       "\n" ++
       "# optionally specify a unified control plane image\n" ++
       "unifiedControlPlaneImage: myimage:v1.18.2\n", none) :=
  ⟨by decide,
   ((Config_default_with_image
      (ConfigData.mk "kind" "v1.18.2" "myimage" (AutoDerivedConfigData.mk "")) (by decide)).1).trans
     (by decide)⟩

/-! ## Lines of the rendered text -/

theorem isPrefixOf_of_mismatch (p : List Char) :
    ∀ (l rest : List Char), mismatch p l = true → p.isPrefixOf (l ++ rest) = false := by
  induction p with
  | nil => intro l rest h; cases l <;> simp [mismatch] at h
  | cons a as ih =>
    intro l rest h
    cases l with
    | nil => simp [mismatch] at h
    | cons b bs =>
      simp only [mismatch, Bool.or_eq_true, bne_iff_ne, ne_eq] at h
      by_cases hab : a = b
      · subst hab
        have h2 : mismatch as bs = true := by
          rcases h with h | h
          · exact absurd rfl h
          · exact h
        simp [List.isPrefixOf, ih bs rest h2]
      · simp [List.isPrefixOf, hab]

theorem scanLines_of_clearOf (p : List Char) (rest : List Char) :
    ∀ (xs : List Char) (b : Bool), clearOf p b xs = true →
      scanLines p b (xs ++ rest) = scanLines p false rest := by
  intro xs
  induction xs with
  | nil =>
    intro b h
    simp only [clearOf, Bool.not_eq_true'] at h
    subst h
    rfl
  | cons c cs ih =>
    intro b h
    simp only [clearOf, Bool.and_eq_true, Bool.or_eq_true, Bool.not_eq_true'] at h
    obtain ⟨h1, h2⟩ := h
    have hfirst : (b && p.isPrefixOf (c :: cs ++ rest)) = false := by
      rcases h1 with h1 | h1
      · simp [h1]
      · rw [isPrefixOf_of_mismatch p (c :: cs) rest h1, Bool.and_false]
    show (b && p.isPrefixOf (c :: cs ++ rest) || scanLines p (decide (c = '\n')) (cs ++ rest)) = _
    rw [hfirst, Bool.false_or, ih _ h2]

theorem isPrefixOf_before_lineFeed (p : List Char) (hn : '\n' ∉ p) :
    ∀ (w z : List Char), p.isPrefixOf (w ++ '\n' :: z) = true → p.isPrefixOf w = true := by
  induction p with
  | nil => intro w z _; simp [List.isPrefixOf]
  | cons a as ih =>
    intro w z h
    have ha : a ≠ '\n' := fun e => hn (by simp [e])
    have has : '\n' ∉ as := fun e => hn (by simp [e])
    cases w with
    | nil => simp [List.isPrefixOf, ha] at h
    | cons x xs =>
      simp only [List.cons_append, List.isPrefixOf, Bool.and_eq_true, beq_iff_eq] at h ⊢
      exact ⟨h.1, ih has xs z h.2⟩

theorem scanLines_through (p : List Char) (hp : p ≠ []) (hn : '\n' ∉ p) (rest : List Char) :
    ∀ (v : List Char) (b : Bool), (b = true → p.isPrefixOf v = false) →
      hasInfix ('\n' :: p) v = false →
      scanLines p b (v ++ '\n' :: rest) = scanLines p true rest := by
  intro v
  induction v with
  | nil =>
    intro b _ _
    have h0 : p.isPrefixOf ('\n' :: rest) = false := by
      cases p with
      | nil => exact absurd rfl hp
      | cons a as =>
        have ha : a ≠ '\n' := fun e => hn (by simp [e])
        simp [List.isPrefixOf, ha]
    show (b && p.isPrefixOf ('\n' :: rest) || scanLines p (decide ('\n' = '\n')) rest) = _
    simp [h0]
  | cons c cs ih =>
    intro b hb hi
    simp only [hasInfix, Bool.or_eq_false_iff] at hi
    obtain ⟨hi1, hi2⟩ := hi
    have hfirst : (b && p.isPrefixOf (c :: cs ++ '\n' :: rest)) = false := by
      cases b with
      | false => rfl
      | true =>
        have h1 := hb rfl
        cases hq : p.isPrefixOf (c :: cs ++ '\n' :: rest) with
        | false => rfl
        | true =>
          have := isPrefixOf_before_lineFeed p hn (c :: cs) rest hq
          rw [h1] at this
          exact absurd this (by decide)
    have hnext : decide (c = '\n') = true → p.isPrefixOf cs = false := by
      intro hc
      have hc2 : c = '\n' := of_decide_eq_true hc
      subst hc2
      simpa [List.isPrefixOf] using hi1
    show (b && p.isPrefixOf (c :: cs ++ '\n' :: rest)
      || scanLines p (decide (c = '\n')) (cs ++ '\n' :: rest)) = _
    rw [hfirst, Bool.false_or, ih _ hnext hi2]

theorem isPrefixOf_append_right (p : List Char) :
    ∀ (v ys : List Char), p.isPrefixOf v = true → p.isPrefixOf (v ++ ys) = true := by
  induction p with
  | nil => intro v ys _; simp [List.isPrefixOf]
  | cons a as ih =>
    intro v ys h
    cases v with
    | nil => simp [List.isPrefixOf] at h
    | cons x xs =>
      simp only [List.cons_append, List.isPrefixOf, Bool.and_eq_true, beq_iff_eq] at h ⊢
      exact ⟨h.1, ih xs ys h.2⟩

theorem hasInfix_append_right (a : Char) (as : List Char) (ys : List Char) :
    ∀ v : List Char, hasInfix (a :: as) v = true → hasInfix (a :: as) (v ++ ys) = true := by
  intro v
  induction v with
  | nil => intro h; simp [hasInfix, List.isPrefixOf] at h
  | cons c cs ih =>
    intro h
    simp only [hasInfix, Bool.or_eq_true] at h
    show ((a :: as).isPrefixOf (c :: cs ++ ys) || hasInfix (a :: as) (cs ++ ys)) = true
    rcases h with h | h
    · rw [isPrefixOf_append_right (a :: as) (c :: cs) ys h, Bool.true_or]
    · rw [ih h, Bool.or_true]

theorem hasInfix_append_left (q : List Char) (v : List Char) (h : hasInfix q v = true) :
    ∀ xs : List Char, hasInfix q (xs ++ v) = true := by
  intro xs
  induction xs with
  | nil => exact h
  | cons c cs ih =>
    show (q.isPrefixOf (c :: (cs ++ v)) || hasInfix q (cs ++ v)) = true
    rw [ih, Bool.or_true]

theorem scanLines_at_start (p : List Char) :
    ∀ x : List Char, p.isPrefixOf x = true → scanLines p true x = true := by
  intro x h
  cases x with
  | nil => simp [scanLines, h]
  | cons c cs => simp [scanLines, h]

theorem scanLines_of_hasInfix (p : List Char) :
    ∀ (x : List Char) (b : Bool), hasInfix ('\n' :: p) x = true → scanLines p b x = true := by
  intro x
  induction x with
  | nil => intro b h; simp [hasInfix, List.isPrefixOf] at h
  | cons c cs ih =>
    intro b h
    simp only [hasInfix, Bool.or_eq_true] at h
    show (b && p.isPrefixOf (c :: cs) || scanLines p (decide (c = '\n')) cs) = true
    rcases h with h | h
    · simp only [List.isPrefixOf, Bool.and_eq_true, beq_iff_eq] at h
      obtain ⟨hc, hp⟩ := h
      subst hc
      rw [show decide ('\n' = '\n') = true from rfl, scanLines_at_start p cs hp, Bool.or_true]
    · rw [ih _ h, Bool.or_true]

set_option maxRecDepth 100000 in
theorem defaultHead_data (cn kv : String) :
    (defaultHead cn kv).data =
      headBeforeName ++ (cn.data ++ ('\n' :: (headBeforeVersion ++ (kv.data ++ ['\n'])))) := by
  simp only [defaultHead, String.data_append, List.append_assoc]
  rfl

set_option maxRecDepth 100000 in
/-- In the head of the default template, a line begins with `p` exactly when one
of the two interpolated names contains a line feed followed by `p`; here for the
key of the image line. -/
theorem defaultHead_lines (cn kv : String) :
    hasLineStarting "unifiedControlPlaneImage:" (defaultHead cn kv) =
      (hasLineFeedThen "unifiedControlPlaneImage:" cn ||
       hasLineFeedThen "unifiedControlPlaneImage:" kv) := by
  have hp : ("unifiedControlPlaneImage:" : String).data ≠ [] := by decide
  have hn : '\n' ∉ ("unifiedControlPlaneImage:" : String).data := by decide
  have hA : clearOf ("unifiedControlPlaneImage:" : String).data true headBeforeName = true := by
    decide
  have hB : clearOf ("unifiedControlPlaneImage:" : String).data true headBeforeVersion = true := by
    decide
  unfold hasLineStarting hasLineFeedThen
  rw [defaultHead_data]
  cases hc : hasInfix ('\n' :: ("unifiedControlPlaneImage:" : String).data) cn.data with
  | true =>
    rw [Bool.true_or]
    exact scanLines_of_hasInfix _ _ _
      (hasInfix_append_left _ _ (hasInfix_append_right _ _ _ _ hc) _)
  | false =>
    rw [Bool.false_or, scanLines_of_clearOf _ _ _ _ hA,
      scanLines_through _ hp hn _ _ _ (fun h => absurd h (by decide)) hc,
      scanLines_of_clearOf _ _ _ _ hB]
    cases hk : hasInfix ('\n' :: ("unifiedControlPlaneImage:" : String).data) kv.data with
    | true =>
      exact scanLines_of_hasInfix _ _ _ (hasInfix_append_right _ _ _ _ hk)
    | false =>
      rw [scanLines_through _ hp hn _ _ _ (fun h => absurd h (by decide)) hk]
      rfl

theorem lineFeed_mem_of_hasInfix (p : List Char) :
    ∀ v : List Char, hasInfix ('\n' :: p) v = true → '\n' ∈ v := by
  intro v
  induction v with
  | nil => intro h; simp [hasInfix, List.isPrefixOf] at h
  | cons c cs ih =>
    intro h
    simp only [hasInfix, Bool.or_eq_true] at h
    rcases h with h | h
    · simp only [List.isPrefixOf, Bool.and_eq_true, beq_iff_eq] at h
      rw [← h.1]
      exact List.mem_cons_self _ _
    · exact List.mem_cons_of_mem _ (ih h)

theorem hasLineFeedThen_of_no_lineFeed (p s : String) (h : '\n' ∉ s.data) :
    hasLineFeedThen p s = false := by
  cases hq : hasLineFeedThen p s with
  | false => rfl
  | true => exact absurd (lineFeed_mem_of_hasInfix _ _ hq) h

theorem stringsReplace_no_plus (s : String) : ¬ hasPlus (stringsReplace s "+" "_" (-1)) := by
  show ¬ '+' ∈ (stringsReplace s "+" "_" (-1)).data
  rw [stringsReplace_plus]
  simp only [List.mem_map, not_exists, not_and]
  intro ch _ hch
  unfold plusToUnderscore at hch
  split at hch
  · exact absurd hch (by decide)
  · contradiction

theorem stringsReplace_eq_empty_iff (s : String) :
    stringsReplace s "+" "_" (-1) = "" ↔ s = "" := by
  constructor
  · intro h
    have hd : (stringsReplace s "+" "_" (-1)).data = [] := congrArg String.data h
    rw [stringsReplace_plus] at hd
    exact String.ext (List.map_eq_nil_iff.mp hd)
  · intro h
    subst h
    decide

theorem parse_unclosed :
    ∃ diag : String, goTemplate.Parse "\x7b\x7b.Bad" = .error diag :=
  ⟨_, rfl⟩

theorem parse_NoSuchField :
    goTemplate.Parse "\x7b\x7b.NoSuchField\x7d\x7d" =
      .ok (Template.action (Expr.operand (Operand.field ["NoSuchField"])) Template.done) := by
  rfl

/-! ## Claims on the lines of the default rendering and on errors -/

set_option maxRecDepth 100000 in
/-- C11, as stated, fails: with no image, a `ClusterName` that holds a line feed
followed by `unifiedControlPlaneImage: other` is interpolated as it is, and the
returned text has a line beginning with `unifiedControlPlaneImage:`. -/
theorem Config_default_injected_image_line :
    (ConfigData.mk "kind\nunifiedControlPlaneImage: other" "v1.18.2" ""
      (AutoDerivedConfigData.mk "")).UnifiedControlPlaneImage = "" ∧
    hasLineStarting "unifiedControlPlaneImage:"
      (Config goTemplate "" (ConfigData.mk "kind\nunifiedControlPlaneImage: other" "v1.18.2" ""
        (AutoDerivedConfigData.mk ""))).1 = true := by
  decide

/-- C11, amended: with `UnifiedControlPlaneImage` empty, the text returned by
`Config` for the empty template source has a line beginning with
`unifiedControlPlaneImage:` exactly when `ClusterName` or `KubernetesVersion`
contains a line feed directly followed by `unifiedControlPlaneImage:`; in
particular it has none when neither of the two contains a line feed. -/
theorem Config_default_image_line_iff (d : ConfigData) (h : d.UnifiedControlPlaneImage = "") :
    hasLineStarting "unifiedControlPlaneImage:" (Config goTemplate "" d).1 =
      (hasLineFeedThen "unifiedControlPlaneImage:" d.ClusterName ||
       hasLineFeedThen "unifiedControlPlaneImage:" d.KubernetesVersion) ∧
    ('\n' ∉ d.ClusterName.data → '\n' ∉ d.KubernetesVersion.data →
      hasLineStarting "unifiedControlPlaneImage:" (Config goTemplate "" d).1 = false) := by
  have hc : (Config goTemplate "" d).1 = defaultHead d.ClusterName d.KubernetesVersion := by
    rw [Config_default, if_pos h]
  rw [hc, defaultHead_lines]
  refine ⟨rfl, ?_⟩
  intro h1 h2
  rw [hasLineFeedThen_of_no_lineFeed _ _ h1, hasLineFeedThen_of_no_lineFeed _ _ h2]
  rfl

set_option maxRecDepth 100000 in
/-- Witness of C11 amended at cluster `kind`, version `v1.18.2`, no image: no line
of the returned text begins with `unifiedControlPlaneImage:`. -/
theorem Config_default_image_line_iff_witness :
    (ConfigData.mk "kind" "v1.18.2" "" (AutoDerivedConfigData.mk "")).UnifiedControlPlaneImage = "" ∧
    hasLineStarting "unifiedControlPlaneImage:"
      (Config goTemplate "" (ConfigData.mk "kind" "v1.18.2" "" (AutoDerivedConfigData.mk ""))).1
      = false :=
  ⟨rfl,
   (Config_default_image_line_iff
      (ConfigData.mk "kind" "v1.18.2" "" (AutoDerivedConfigData.mk "")) rfl).2
     (by decide) (by decide)⟩

/-- C12: for every template engine, when the chosen template source fails to
parse, `Config` returns the empty text and the parser's diagnostic wrapped with
the message `failed to parse config template`, the same for every data; and
under the model of `text/template` the source with the unterminated action
`.Bad` yields, for every data, the empty text and an error with that message
wrapping some parser diagnostic. -/
theorem Config_parse_failure (E : TemplateEngine) (templateSource : String) (d : ConfigData)
    (diag : String)
    (h : E.Parse (if templateSource = "" then DefaultConfigTemplate else templateSource)
      = .error diag) :
    Config E templateSource d =
      ("", some (WrappedError.mk diag "failed to parse config template")) ∧
    (∀ d2 : ConfigData, Config E templateSource d2 = Config E templateSource d) ∧
    (WrappedError.mk diag "failed to parse config template").Error =
      "failed to parse config template: " ++ diag ∧
    (∀ d0 : ConfigData, ∃ diag0 : String, Config goTemplate "\x7b\x7b.Bad" d0 =
      ("", some (WrappedError.mk diag0 "failed to parse config template"))) := by
  have hall : ∀ x : ConfigData, Config E templateSource x =
      ("", some (WrappedError.mk diag "failed to parse config template")) := by
    intro x
    simp only [Config, h]
  refine ⟨hall d, fun d2 => (hall d2).trans (hall d).symm, rfl, ?_⟩
  intro d0
  have hne : ¬ ("\x7b\x7b.Bad" : String) = "" := by decide
  obtain ⟨diag0, hbad⟩ := parse_unclosed
  exact ⟨diag0, by simp only [Config, if_neg hne, hbad]⟩

/-- Witness of C12 at the source with the unterminated action `.Bad`: parsing
fails with some diagnostic, and `Config` returns the empty text and that
diagnostic wrapped as a parse failure. -/
theorem Config_parse_failure_witness :
    ∃ diag : String,
      goTemplate.Parse (if ("\x7b\x7b.Bad" : String) = "" then DefaultConfigTemplate
        else "\x7b\x7b.Bad") = .error diag ∧
      Config goTemplate "\x7b\x7b.Bad"
        (ConfigData.mk "kind" "v1.18.2" "" (AutoDerivedConfigData.mk ""))
        = ("", some (WrappedError.mk diag "failed to parse config template")) :=
  ⟨_, rfl,
   (Config_parse_failure goTemplate "\x7b\x7b.Bad"
      (ConfigData.mk "kind" "v1.18.2" "" (AutoDerivedConfigData.mk "")) _ rfl).1⟩

/-- C13: for every template engine, when the chosen template source parses and
the execution against the derived data fails, `Config` returns the empty text
and the diagnostic wrapped with the message `error executing config template`,
which differs from the message of a parse failure; and under the model of
`text/template` the source that prints the field `NoSuchField` parses and, for
every data, yields the empty text and an error with the execution message
wrapping some evaluation diagnostic. -/
theorem Config_execution_failure (E : TemplateEngine) (templateSource : String) (d : ConfigData)
    (t : E.Template) (buff diag : String)
    (hp : E.Parse (if templateSource = "" then DefaultConfigTemplate else templateSource) = .ok t)
    (hx : E.Execute t d.DeriveFields = (buff, some diag)) :
    Config E templateSource d =
      ("", some (WrappedError.mk diag "error executing config template")) ∧
    (WrappedError.mk diag "error executing config template").Error =
      "error executing config template: " ++ diag ∧
    ("error executing config template" : String) ≠ "failed to parse config template" ∧
    (∀ d0 : ConfigData,
      (∃ t0, goTemplate.Parse "\x7b\x7b.NoSuchField\x7d\x7d" = .ok t0) ∧
      ∃ diag0 : String, Config goTemplate "\x7b\x7b.NoSuchField\x7d\x7d" d0 =
        ("", some (WrappedError.mk diag0 "error executing config template"))) := by
  refine ⟨?_, rfl, by decide, ?_⟩
  · simp only [Config, hp, hx]
  · intro d0
    refine ⟨⟨_, parse_NoSuchField⟩, ?_⟩
    have hne : ¬ ("\x7b\x7b.NoSuchField\x7d\x7d" : String) = "" := by decide
    have hlook : lookupField d0.DeriveFields "NoSuchField" =
        .error "can't evaluate field NoSuchField in type kubeadm.ConfigData" := by
      simp [lookupField]
    have hrun : goTemplate.Execute
        (Template.action (Expr.operand (Operand.field ["NoSuchField"])) Template.done)
        d0.DeriveFields =
        ("", some "can't evaluate field NoSuchField in type kubeadm.ConfigData") := by
      show execTemplate d0.DeriveFields _ "" = _
      simp only [execTemplate, evalExpr, evalOperand, hlook]
    exact ⟨"can't evaluate field NoSuchField in type kubeadm.ConfigData",
      by simp only [Config, if_neg hne, parse_NoSuchField, hrun]⟩

/-- Witness of C13 at the source that prints the field `NoSuchField`: the source
parses, the execution on the derived data fails with some diagnostic before
anything is written, and `Config` returns the empty text and that diagnostic
wrapped as an execution failure. -/
theorem Config_execution_failure_witness :
    ∃ (t : goTemplate.Template) (diag : String),
      goTemplate.Parse (if ("\x7b\x7b.NoSuchField\x7d\x7d" : String) = "" then
        DefaultConfigTemplate else "\x7b\x7b.NoSuchField\x7d\x7d") = .ok t ∧
      goTemplate.Execute t
        (ConfigData.mk "kind" "v1.18.2" "" (AutoDerivedConfigData.mk "")).DeriveFields =
        ("", some diag) ∧
      Config goTemplate "\x7b\x7b.NoSuchField\x7d\x7d"
        (ConfigData.mk "kind" "v1.18.2" "" (AutoDerivedConfigData.mk "")) =
        ("", some (WrappedError.mk diag "error executing config template")) :=
  ⟨Template.action (Expr.operand (Operand.field ["NoSuchField"])) Template.done,
   "can't evaluate field NoSuchField in type kubeadm.ConfigData", rfl, by decide,
   (Config_execution_failure goTemplate "\x7b\x7b.NoSuchField\x7d\x7d"
      (ConfigData.mk "kind" "v1.18.2" "" (AutoDerivedConfigData.mk ""))
      (Template.action (Expr.operand (Operand.field ["NoSuchField"])) Template.done)
      "" "can't evaluate field NoSuchField in type kubeadm.ConfigData" rfl (by decide)).1⟩

/-- C14: with `DockerStableTag` empty and no `+` in `KubernetesVersion`,
`DeriveFields` sets `DockerStableTag` to `KubernetesVersion` unchanged; and for
the version `v1.18.2+abc` the derived tag is `v1.18.2_abc`. -/
theorem DeriveFields_version_without_plus (c : ConfigData) (h : c.DockerStableTag = "")
    (hv : ¬ hasPlus c.KubernetesVersion) :
    c.DeriveFields.DockerStableTag = c.KubernetesVersion ∧
    (∀ name image : String,
      (ConfigData.mk name "v1.18.2+abc" image (AutoDerivedConfigData.mk "")).DeriveFields.DockerStableTag
        = "v1.18.2_abc") := by
  constructor
  · rw [DeriveFields_of_empty c h]
    apply String.ext
    show (stringsReplace c.KubernetesVersion "+" "_" (-1)).data = _
    rw [stringsReplace_plus]
    have hid : ∀ ch ∈ c.KubernetesVersion.data, plusToUnderscore ch = ch := by
      intro ch hch
      unfold plusToUnderscore
      split
      · rename_i heq
        subst heq
        exact absurd hch hv
      · rfl
    calc c.KubernetesVersion.data.map plusToUnderscore
        = c.KubernetesVersion.data.map id := List.map_congr_left hid
      _ = c.KubernetesVersion.data := List.map_id _
  · intro name image
    rw [DeriveFields_of_empty
      (ConfigData.mk name "v1.18.2+abc" image (AutoDerivedConfigData.mk "")) rfl]
    show stringsReplace "v1.18.2+abc" "+" "_" (-1) = "v1.18.2_abc"
    decide

/-- Witness of C14 at the version `v1.18.2`, which has no `+`. -/
theorem DeriveFields_version_without_plus_witness :
    (ConfigData.mk "kind" "v1.18.2" "" (AutoDerivedConfigData.mk "")).DockerStableTag = "" ∧
    ¬ hasPlus (ConfigData.mk "kind" "v1.18.2" "" (AutoDerivedConfigData.mk "")).KubernetesVersion ∧
    (ConfigData.mk "kind" "v1.18.2" "" (AutoDerivedConfigData.mk "")).DeriveFields.DockerStableTag
      = "v1.18.2" :=
  ⟨by decide, by decide,
   (DeriveFields_version_without_plus
      (ConfigData.mk "kind" "v1.18.2" "" (AutoDerivedConfigData.mk "")) (by decide) (by decide)).1⟩

/-- C15: `DeriveFields` is a total function with no error outcome; on the
zero-valued `ConfigData` it returns the zero-valued `ConfigData`; and for every
`ConfigData` the derived `DockerStableTag` is empty exactly when `DockerStableTag`
and `KubernetesVersion` were both empty before. -/
theorem DeriveFields_zero_value :
    (ConfigData.mk "" "" "" (AutoDerivedConfigData.mk "")).DeriveFields =
      ConfigData.mk "" "" "" (AutoDerivedConfigData.mk "") ∧
    (∀ c : ConfigData, ∃ r : ConfigData, c.DeriveFields = r) ∧
    (∀ c : ConfigData,
      c.DeriveFields.DockerStableTag = "" ↔ (c.DockerStableTag = "" ∧ c.KubernetesVersion = "")) := by
  refine ⟨by decide, fun c => ⟨_, rfl⟩, ?_⟩
  intro c
  by_cases he : c.DockerStableTag = ""
  · rw [DeriveFields_of_empty c he]
    show stringsReplace c.KubernetesVersion "+" "_" (-1) = "" ↔ _
    rw [stringsReplace_eq_empty_iff]
    exact ⟨fun hk => ⟨he, hk⟩, fun hk => hk.2⟩
  · rw [DeriveFields_of_nonempty c he]
    exact ⟨fun hk => absurd hk he, fun hk => hk.1⟩

/-- C16: under the model of `text/template`, rendering with the built-in default
template never fails: for every data `Config` with the empty template source
returns no error; the default template parses and its execution on the derived
data returns no error. -/
theorem Config_default_never_fails (d : ConfigData) :
    (Config goTemplate "" d).2 = none ∧
    (∃ t, goTemplate.Parse DefaultConfigTemplate = .ok t ∧
      (goTemplate.Execute t d.DeriveFields).2 = none) := by
  constructor
  · rw [Config_default]
  · refine ⟨defaultTree, parse_DefaultConfigTemplate, ?_⟩
    show (execTemplate d.DeriveFields defaultTree "").2 = none
    rw [exec_defaultTree]

/-- C17: for every template engine, source and data, `Config` on the data after
`DeriveFields` returns the same pair (text, error) as `Config` on the data. -/
theorem Config_prederived (E : TemplateEngine) (templateSource : String) (d : ConfigData) :
    Config E templateSource d.DeriveFields = Config E templateSource d := by
  simp only [Config, DeriveFields_twice]

/-- C18: when the `DockerStableTag` before `DeriveFields` is empty or free of `+`,
the `DockerStableTag` after contains no `+`. -/
theorem DeriveFields_unsupplied_plus_free (c : ConfigData)
    (h : c.DockerStableTag = "" ∨ ¬ hasPlus c.DockerStableTag) :
    ¬ hasPlus c.DeriveFields.DockerStableTag := by
  by_cases he : c.DockerStableTag = ""
  · rw [DeriveFields_of_empty c he]
    exact stringsReplace_no_plus c.KubernetesVersion
  · rw [DeriveFields_of_nonempty c he]
    rcases h with h | h
    · exact absurd h he
    · exact h

/-- Witness of C18: no tag supplied and the version `v1.11.0+build.7`. -/
theorem DeriveFields_unsupplied_plus_free_witness :
    ((ConfigData.mk "kind" "v1.11.0+build.7" "" (AutoDerivedConfigData.mk "")).DockerStableTag = "" ∨
      ¬ hasPlus (ConfigData.mk "kind" "v1.11.0+build.7" "" (AutoDerivedConfigData.mk "")).DockerStableTag) ∧
    ¬ hasPlus
      (ConfigData.mk "kind" "v1.11.0+build.7" "" (AutoDerivedConfigData.mk "")).DeriveFields.DockerStableTag :=
  ⟨Or.inl (by decide),
   DeriveFields_unsupplied_plus_free
     (ConfigData.mk "kind" "v1.11.0+build.7" "" (AutoDerivedConfigData.mk "")) (Or.inl (by decide))⟩

end Kubeadm
